import Mathlib

/-!
Verification of the deterministic lazy signal-generation engine of this
repository: the `Templates` dataclass (`core/template.py`) and the
spec-described noise / template / sorting / injection generators.

Machine floats are modelled as exact rationals, numpy arrays as nested lists,
and fallible constructors as `Except`.
-/

namespace SpikeTemplates

/-- Indices of the channels marked active in one row of a boolean sparsity
mask (the row's `True` positions, in increasing order). -/
def activeIndices (maskRow : List Bool) : List Nat :=
  (List.range maskRow.length).filter (fun c => maskRow.getD c false)

/-- Modelled from the spec: the repository's `ChannelSparsity` lives in
`core/sparsity.py`, which is not under `src/`.  Per the spec a sparsity mask is
a "boolean unit×channel matrix marking channels considered active for a unit";
units are addressed here by their index. -/
structure ChannelSparsity where
  mask : List (List Bool)
  unit_ids : List Nat
  channel_ids : List Nat
deriving Repr, DecidableEq

/-- Modelled from the spec: `ChannelSparsity.are_waveforms_sparse` is in the
missing `core/sparsity.py`.  Per the spec, "any externally supplied waveform
data for a unit must be zero/negligible outside the mask": in the sparse
layout a unit's waveform carries its active channels in the leading columns,
so every column beyond the unit's active-channel count must be zero. -/
def ChannelSparsity.areWaveformsSparse (sp : ChannelSparsity)
    (waveforms : List (List Rat)) (unitIndex : Nat) : Bool :=
  let k := (activeIndices (sp.mask.getD unitIndex [])).length
  waveforms.all (fun row => (row.drop k).all (fun v => v == 0))

/-- Modelled from the spec: `ChannelSparsity.densify_waveforms` is in the
missing `core/sparsity.py`.  The dense row is "zero on every channel outside a
unit's mask and carries the unit's sparse waveform values on the channels
inside it": the j-th active channel receives the j-th sparse column. -/
def densifyRowEntry (maskRow : List Bool) (row : List Rat) (c : Nat) : Rat :=
  match (activeIndices maskRow).findIdx? (fun a => a == c) with
  | some j => row.getD j 0
  | none => 0

/-- The `Templates` dataclass of `core/template.py`, with its `init=False`
derived attributes made explicit fields, as `__post_init__` computes them. -/
structure Templates where
  templates_array : List (List (List Rat))
  sampling_frequency : Rat
  nbefore : Int
  sparsity_mask : Option (List (List Bool))
  channel_ids : List Nat
  unit_ids : List Nat
  check_for_consistent_sparsity : Bool
  num_units : Nat
  num_samples : Nat
  num_channels : Nat
  nafter : Int
  ms_before : Rat
  ms_after : Rat
  sparsity : Option ChannelSparsity
deriving Repr, DecidableEq

/-- `templates_array.shape[0]` -/
def tNumUnits (arr : List (List (List Rat))) : Nat := arr.length

/-- `templates_array.shape[1]` -/
def tNumSamples (arr : List (List (List Rat))) : Nat := (arr.getD 0 []).length

/-- `num_channels`: `templates_array.shape[2]` when dense, else
`sparsity_mask.shape[1]` (`__post_init__`). -/
def tNumChannels (arr : List (List (List Rat)))
    (mask : Option (List (List Bool))) : Nat :=
  match mask with
  | none => ((arr.getD 0 []).getD 0 []).length
  | some m => (m.getD 0 []).length

/-- `channel_ids`, defaulted to `np.arange(num_channels)` when `None`. -/
def tChannelIds (arr : List (List (List Rat))) (mask : Option (List (List Bool)))
    (cids : Option (List Nat)) : List Nat :=
  cids.getD (List.range (tNumChannels arr mask))

/-- `unit_ids`, defaulted to `np.arange(num_units)` when `None`. -/
def tUnitIds (arr : List (List (List Rat))) (uids : Option (List Nat)) : List Nat :=
  uids.getD (List.range (tNumUnits arr))

/-- The `ChannelSparsity` object `__post_init__` builds from the mask. -/
def tSparsity (arr : List (List (List Rat))) (mask : Option (List (List Bool)))
    (cids uids : Option (List Nat)) : Option ChannelSparsity :=
  mask.map (fun m => ChannelSparsity.mk m (tUnitIds arr uids) (tChannelIds arr mask cids))

/-- `Templates._are_passed_templates_sparse`: every unit's supplied waveforms
pass the sparsity check (iteration over `enumerate(self.unit_ids)`). -/
def passedTemplatesSparse (arr : List (List (List Rat)))
    (mask : Option (List (List Bool))) (cids uids : Option (List Nat)) : Bool :=
  match tSparsity arr mask cids uids with
  | some sp =>
      (List.range (tUnitIds arr uids).length).all
        (fun u => sp.areWaveformsSparse (arr.getD u []) u)
  | none => true

/-- The consistency check of `__post_init__`: it fires only when a sparsity
mask is present, `check_for_consistent_sparsity` holds, and the passed
templates are not sparse. -/
def sparsityViolation (arr : List (List (List Rat)))
    (mask : Option (List (List Bool))) (cids uids : Option (List Nat))
    (check : Bool) : Bool :=
  match mask with
  | some _ => check && !(passedTemplatesSparse arr mask cids uids)
  | none => false

/-- The record `__post_init__` assembles (before the consistency check). -/
def mkRecord (arr : List (List (List Rat))) (fs : Rat) (nb : Int)
    (mask : Option (List (List Bool))) (cids uids : Option (List Nat))
    (check : Bool) : Templates :=
  { templates_array := arr
    sampling_frequency := fs
    nbefore := nb
    sparsity_mask := mask
    channel_ids := tChannelIds arr mask cids
    unit_ids := tUnitIds arr uids
    check_for_consistent_sparsity := check
    num_units := tNumUnits arr
    num_samples := tNumSamples arr
    num_channels := tNumChannels arr mask
    nafter := (tNumSamples arr : Int) - nb
    ms_before := (nb : Rat) / fs * 1000
    ms_after := (((tNumSamples arr : Int) - nb : Int) : Rat) / fs * 1000
    sparsity := tSparsity arr mask cids uids }

/-- Construction of a `Templates` (`__init__` + `__post_init__`): raises
`ValueError` when the sparsity consistency check fails. -/
def mkTemplates (arr : List (List (List Rat))) (fs : Rat) (nb : Int)
    (mask : Option (List (List Bool))) (cids uids : Option (List Nat))
    (check : Bool) : Except String Templates :=
  if sparsityViolation arr mask cids uids check then
    Except.error "Sparsity mask passed but the templates are not sparse"
  else
    Except.ok (mkRecord arr fs nb mask cids uids check)

/-- `Templates.get_dense_templates`: identity when dense; otherwise a
zero-initialised `(num_units, num_samples, num_channels)` array filled
per unit by `ChannelSparsity.densify_waveforms`. -/
def Templates.getDense (t : Templates) : List (List (List Rat)) :=
  match t.sparsity with
  | none => t.templates_array
  | some sp =>
      (List.range t.num_units).map (fun u =>
        (List.range t.num_samples).map (fun s =>
          (List.range t.num_channels).map (fun c =>
            densifyRowEntry (sp.mask.getD u []) ((t.templates_array.getD u []).getD s []) c)))

/-- The interchange record of `Templates.to_dict`. -/
structure TemplatesDict where
  templates_array : List (List (List Rat))
  sparsity_mask : Option (List (List Bool))
  channel_ids : List Nat
  unit_ids : List Nat
  sampling_frequency : Rat
  nbefore : Int
deriving Repr, DecidableEq

/-- `Templates.to_dict`. -/
def Templates.toDict (t : Templates) : TemplatesDict :=
  { templates_array := t.templates_array
    sparsity_mask := t.sparsity_mask
    channel_ids := t.channel_ids
    unit_ids := t.unit_ids
    sampling_frequency := t.sampling_frequency
    nbefore := t.nbefore }

/-- `Templates.from_dict`: reconstructs with the default
`check_for_consistent_sparsity=True`. -/
def Templates.fromDict (d : TemplatesDict) : Except String Templates :=
  mkTemplates d.templates_array d.sampling_frequency d.nbefore d.sparsity_mask
    (some d.channel_ids) (some d.unit_ids) true

/-- Modelled from the spec: the textual encoding of `Templates.to_json` uses
`SIJsonEncoder` from `core/core_tools.py`, which is not under `src/`; the spec
asks for a "JSON-like" value encoding "preserving numeric arrays exactly". -/
inductive JVal where
  | jnull : JVal
  | jnum : Rat → JVal
  | jint : Int → JVal
  | jarr : List JVal → JVal
deriving Repr

/-- Encode a list element-wise into a JSON array value. -/
def encodeListJ (f : α → JVal) (l : List α) : JVal := JVal.jarr (l.map f)

/-- All-or-nothing traversal of a decoded JSON array. -/
def optTraverse (g : JVal → Option α) : List JVal → Option (List α)
  | [] => some []
  | x :: xs =>
      match g x, optTraverse g xs with
      | some y, some ys => some (y :: ys)
      | _, _ => none

/-- Decode a JSON array value element-wise. -/
def decodeListJ (g : JVal → Option α) : JVal → Option (List α)
  | JVal.jarr xs => optTraverse g xs
  | _ => none

/-- Decode one rational number. -/
def decodeNumJ : JVal → Option Rat
  | JVal.jnum q => some q
  | _ => none

/-- Decode one integer. -/
def decodeIntJ : JVal → Option Int
  | JVal.jint n => some n
  | _ => none

/-- Booleans of the sparsity mask travel as 0/1 integers. -/
def encodeBoolJ (b : Bool) : JVal := JVal.jint (if b then 1 else 0)

/-- Decode one mask boolean. -/
def decodeBoolJ : JVal → Option Bool
  | JVal.jint 1 => some true
  | JVal.jint 0 => some false
  | _ => none

/-- Channel/unit ids travel as integers. -/
def encodeNatJ (n : Nat) : JVal := JVal.jint n

/-- Decode one id. -/
def decodeNatJ : JVal → Option Nat
  | JVal.jint n => if 0 ≤ n then some n.toNat else none
  | _ => none

/-- `Templates.to_json` on the interchange record: a fixed-layout JSON array
holding the six fields. -/
def encodeDictJ (d : TemplatesDict) : JVal :=
  JVal.jarr
    [ encodeListJ (encodeListJ (encodeListJ JVal.jnum)) d.templates_array,
      (match d.sparsity_mask with
       | none => JVal.jnull
       | some m => encodeListJ (encodeListJ encodeBoolJ) m),
      encodeListJ encodeNatJ d.channel_ids,
      encodeListJ encodeNatJ d.unit_ids,
      JVal.jnum d.sampling_frequency,
      JVal.jint d.nbefore ]

/-- Inverse of `encodeDictJ` (the parsing half of `Templates.from_json`). -/
def decodeDictJ : JVal → Option TemplatesDict
  | JVal.jarr [ta, mk, cids, uids, fs, nb] => do
      let ta' ← decodeListJ (decodeListJ (decodeListJ decodeNumJ)) ta
      let mk' ← (match mk with
        | JVal.jnull => some none
        | v => (decodeListJ (decodeListJ decodeBoolJ) v).map some)
      let cids' ← decodeListJ decodeNatJ cids
      let uids' ← decodeListJ decodeNatJ uids
      let fs' ← decodeNumJ fs
      let nb' ← decodeIntJ nb
      some ⟨ta', mk', cids', uids', fs', nb'⟩
  | _ => none

/-- `Templates.to_json`. -/
def Templates.toJson (t : Templates) : JVal := encodeDictJ t.toDict

/-- `Templates.from_json`. -/
def templatesFromJson (j : JVal) : Except String Templates :=
  match decodeDictJ j with
  | some d => Templates.fromDict d
  | none => Except.error "invalid json"

/-- `Templates.__eq__`: every `astuple` field compared, numpy arrays by value
(`np.array_equal`), the `ChannelSparsity` field by mask and ids. -/
def templatesEq (a b : Templates) : Bool :=
  a.templates_array == b.templates_array &&
  a.sampling_frequency == b.sampling_frequency &&
  a.nbefore == b.nbefore &&
  a.sparsity_mask == b.sparsity_mask &&
  a.channel_ids == b.channel_ids &&
  a.unit_ids == b.unit_ids &&
  a.check_for_consistent_sparsity == b.check_for_consistent_sparsity &&
  a.num_units == b.num_units &&
  a.num_samples == b.num_samples &&
  a.num_channels == b.num_channels &&
  a.nafter == b.nafter &&
  a.ms_before == b.ms_before &&
  a.ms_after == b.ms_after &&
  a.sparsity == b.sparsity

/-- Decidable well-formedness of a sparse templates array against its mask:
the mask covers every unit row, rows are rectangular, and every unit's
active-channel count fits inside the sparse width. -/
def templatesShapeOK (arr : List (List (List Rat))) (m : List (List Bool)) : Bool :=
  let ns := tNumSamples arr
  let w := ((arr.getD 0 []).getD 0 []).length
  let nc := (m.getD 0 []).length
  m.length == arr.length &&
  arr.all (fun wf => wf.length == ns && wf.all (fun row => row.length == w)) &&
  m.all (fun r => r.length == nc) &&
  m.all (fun r => (activeIndices r).length ≤ w)

/-- Re-extract the sparse row of one dense row under a mask: the values on the
active channels followed by zero padding up to the sparse width. -/
def sparsifyRow (maskRow : List Bool) (denseRow : List Rat) (width : Nat) : List Rat :=
  ((activeIndices maskRow).map (fun c => denseRow.getD c 0)) ++
    List.replicate (width - (activeIndices maskRow).length) 0

end SpikeTemplates

namespace SpikeGen

/-!
Modelled from the spec: the repository's `core/generate.py` (counter-addressable
noise source, `NoiseGeneratorRecording`, `generate_templates`,
`generate_sorting`, `InjectTemplatesRecording`) is not under `src/` — only its
tests are.  The definitions in this namespace follow §4 of the spec: a keyed
counter-based pseudo-random stream per block, block stitching and cropping for
`get_traces`, a parametric template synthesizer, a border-aware sorting
generator, and an additive injection compositor.
-/

/-- Deterministic mixing of `(seed, segment_index, block_index)` into a
sub-seed (spec §4.1: "a bijective integer hash / counter-based generator"). -/
def mix64 (a b c : Nat) : Nat :=
  (a * 2654435761 + b * 97531 + c * 69069 + 1013904223) % 18446744073709551616

/-- One step of a 64-bit linear congruential generator. -/
def lcg (x : Nat) : Nat :=
  (x * 6364136223846793005 + 1442695040888963407) % 18446744073709551616

/-- One pseudo-random sample of the keyed stream, in `[-1, 1]`. -/
def noiseValue (subseed t c : Nat) : Rat :=
  ((lcg (mix64 subseed t c)) % 2001 : Nat) / 1000 - 1

/-- `block(seed, segment_index, block_index)` (spec §4.1): one
`noise_block_size × num_channels` matrix, a pure function of its key. -/
def noiseBlock (seed seg blockIndex bs nch : Nat) : List (List Rat) :=
  (List.range bs).map (fun t =>
    (List.range nch).map (fun c => noiseValue (mix64 seed seg blockIndex) t c))

/-- The two `NoiseGeneratorRecording` strategies (spec §4.2). -/
inductive Strategy where
  | tilePregenerated : Strategy
  | onTheFly : Strategy
deriving Repr, DecidableEq

/-- The small fixed number `K` of pregenerated blocks of the
`tile_pregenerated` strategy. -/
def numPregenBlocks : Nat := 5

/-- The block served for absolute block index `i`: computed fresh
(`on_the_fly`) or taken from the pregenerated pool at `i mod K` with the
deterministic index-dependent transform (alternate passes time-reversed). -/
def blockOf (st : Strategy) (seed seg bs nch i : Nat) : List (List Rat) :=
  match st with
  | Strategy.onTheFly => noiseBlock seed seg i bs nch
  | Strategy.tilePregenerated =>
      let base := noiseBlock seed seg (i % numPregenBlocks) bs nch
      if (i / numPregenBlocks) % 2 = 1 then base.reverse else base

/-- The noise row at absolute sample position `i` of a segment: row
`i mod bs` of block `i / bs` — a pure function of position. -/
def sampleRow (st : Strategy) (seed seg bs nch i : Nat) : List Rat :=
  (blockOf st seed seg bs nch (i / bs)).getD (i % bs) []

/-- `NoiseGeneratorRecording.get_traces` (spec §4.2): map the requested range
to the covering block indices, stitch the blocks, crop to the range. -/
def getTraces (st : Strategy) (seed seg bs nch startFrame endFrame : Nat) :
    List (List Rat) :=
  let firstBlock := startFrame / bs
  let lastBlock := (endFrame + bs - 1) / bs
  let stitched := ((List.range (lastBlock - firstBlock)).map
      (fun j => blockOf st seed seg bs nch (firstBlock + j))).flatten
  (stitched.drop (startFrame - firstBlock * bs)).take (endFrame - startFrame)

/-- The constructed state of a `NoiseGeneratorRecording` instance: the
immutable parameters plus the pregenerated block pool, written once at
construction (spec §5). -/
structure NoiseRecState where
  strategy : Strategy
  seed : Nat
  bs : Nat
  nch : Nat
  numSegments : Nat
  cache : List (List (List (List Rat)))
deriving Repr, DecidableEq

/-- Construction of a noise recording: the `tile_pregenerated` strategy
precomputes `K` blocks per segment with sub-seeds `0..K-1`. -/
def mkNoiseState (st : Strategy) (seed bs nch nseg : Nat) : NoiseRecState :=
  { strategy := st, seed := seed, bs := bs, nch := nch, numSegments := nseg
    cache :=
      match st with
      | Strategy.tilePregenerated =>
          (List.range nseg).map (fun sg =>
            (List.range numPregenBlocks).map (fun j => noiseBlock seed sg j bs nch))
      | Strategy.onTheFly => [] }

/-- Block lookup on an instance: `on_the_fly` recomputes, `tile_pregenerated`
reads the pool at `i mod K` and applies the index-dependent transform. -/
def cachedBlockOf (r : NoiseRecState) (seg i : Nat) : List (List Rat) :=
  match r.strategy with
  | Strategy.onTheFly => noiseBlock r.seed seg i r.bs r.nch
  | Strategy.tilePregenerated =>
      let base := (r.cache.getD seg []).getD (i % numPregenBlocks) []
      if (i / numPregenBlocks) % 2 = 1 then base.reverse else base

/-- Stateful `get_traces` on a noise recording instance: returns the traces
and the (unchanged) instance state. -/
def getTracesSt (r : NoiseRecState) (seg startFrame endFrame : Nat) :
    List (List Rat) × NoiseRecState :=
  let firstBlock := startFrame / r.bs
  let lastBlock := (endFrame + r.bs - 1) / r.bs
  let stitched := ((List.range (lastBlock - firstBlock)).map
      (fun j => cachedBlockOf r seg (firstBlock + j))).flatten
  ((stitched.drop (startFrame - firstBlock * r.bs)).take (endFrame - startFrame), r)

/-- Seed resolution (spec: "an effective seed is fixed at construction"):
an unspecified seed is replaced by a fresh entropy draw, once. -/
def resolveSeed (seed : Option Nat) (entropy : Nat) : Nat :=
  seed.getD entropy

/-- The serialized construction parameters of a noise recording
(`to_dict` stores the effective seed, never the data). -/
structure NoiseRecDict where
  strategy : Strategy
  seed : Nat
  bs : Nat
  nch : Nat
  numSegments : Nat
deriving Repr, DecidableEq

/-- `NoiseGeneratorRecording` constructor with an optional seed. -/
def mkNoiseRec (st : Strategy) (seedOpt : Option Nat) (entropy bs nch nseg : Nat) :
    NoiseRecState :=
  mkNoiseState st (resolveSeed seedOpt entropy) bs nch nseg

/-- `NoiseGeneratorRecording.to_dict`. -/
def noiseToDict (r : NoiseRecState) : NoiseRecDict :=
  ⟨r.strategy, r.seed, r.bs, r.nch, r.numSegments⟩

/-- Reconstruction from the serialized parameters alone. -/
def noiseFromDict (d : NoiseRecDict) (entropy : Nat) : NoiseRecState :=
  mkNoiseRec d.strategy (some d.seed) entropy d.bs d.nch d.numSegments

/-- One spike record of the spike vector (spec §3). -/
structure Spike where
  seg : Nat
  sample : Nat
  unit : Nat
  phase : Nat
deriving Repr, DecidableEq

/-- Number of time samples of a template tensor (`shape[1]`). -/
def tmplNumSamples (tm : List (List (List (List Rat)))) : Nat :=
  (tm.getD 0 []).length

/-- Number of upsample phases of a template tensor (`shape[3]`; 1 when the
tensor stands for a 3-D template set). -/
def tmplNumPhases (tm : List (List (List (List Rat)))) : Nat :=
  (((tm.getD 0 []).getD 0 []).getD 0 []).length

/-- Value of a template tensor at (unit, time, channel, phase). -/
def tmplVal (tm : List (List (List (List Rat)))) (u t c p : Nat) : Rat :=
  ((((tm.getD u []).getD t []).getD c []).getD p 0)

/-- Additive contribution of one spike to output position `(i, c)`: the
spike's template window is `[sample - nbefore, sample - nbefore + ns)`, and
only the in-bounds overlap contributes (spec §4.4 step 3). -/
def spikeContrib (nbefore ns : Nat) (tm : List (List (List (List Rat))))
    (spk : Spike) (i c : Nat) : Rat :=
  let off : Int := (i : Int) - ((spk.sample : Int) - (nbefore : Int))
  if 0 ≤ off ∧ off < (ns : Int) then tmplVal tm spk.unit off.toNat c spk.phase else 0

/-- The constructed state of an `InjectTemplatesRecording`: immutable spike
train, template tensor, pre-drawn upsample phases and optional background. -/
structure InjRecState where
  rawSpikes : List (Nat × Nat × Nat)
  phases : List Nat
  templates : List (List (List (List Rat)))
  nbefore : Nat
  numSamples : List Nat
  nch : Nat
  background : Option NoiseRecState
deriving Repr, DecidableEq

/-- The spike records of an injection instance, phases attached. -/
def InjRecState.spikes (s : InjRecState) : List Spike :=
  (List.range s.rawSpikes.length).map (fun k =>
    let r := s.rawSpikes.getD k (0, 0, 0)
    ⟨r.1, r.2.1, r.2.2, s.phases.getD k 0⟩)

/-- Total template contribution at output position `(seg, i, c)`: the sum over
the segment's spikes (overlapping spikes accumulate additively). -/
def totalContrib (s : InjRecState) (seg i c : Nat) : Rat :=
  ((s.spikes.filter (fun spk => spk.seg == seg)).map
    (fun spk => spikeContrib s.nbefore (tmplNumSamples s.templates) s.templates spk i c)).sum

/-- `InjectTemplatesRecording.get_traces` (spec §4.4): the background window
(zeros when no background recording), plus all overlapping spike windows. -/
def injGetTraces (s : InjRecState) (seg startFrame endFrame : Nat) :
    List (List Rat) :=
  let base :=
    match s.background with
    | some r => (getTracesSt r seg startFrame endFrame).1
    | none => (List.range (endFrame - startFrame)).map
        (fun _ => List.replicate s.nch 0)
  base.mapIdx (fun idx row =>
    row.mapIdx (fun c v => v + totalContrib s seg (startFrame + idx) c))

/-- Stateful `get_traces` on an injection instance. -/
def injGetTracesSt (s : InjRecState) (seg startFrame endFrame : Nat) :
    List (List Rat) × InjRecState :=
  (injGetTraces s seg startFrame endFrame, s)

/-- Deterministic pre-generation of the upsample phase of every spike at
construction, from a seeded draw over `[0, num_upsample_phases)` (spec §4.4:
"fixed thereafter — never regenerated per query"). -/
def genPhaseVector (seed n numPhases : Nat) : List Nat :=
  (List.range n).map (fun k => mix64 seed k 7 % numPhases)

/-- `InjectTemplatesRecording` constructor: an absent upsample vector is drawn
once from the effective seed. -/
def mkInjRec (rawSpikes : List (Nat × Nat × Nat))
    (tm : List (List (List (List Rat)))) (nbefore : Nat) (numSamples : List Nat)
    (nch : Nat) (upsOpt : Option (List Nat)) (seedOpt : Option Nat)
    (entropy : Nat) (bg : Option NoiseRecState) : InjRecState :=
  { rawSpikes := rawSpikes
    phases := upsOpt.getD
      (genPhaseVector (resolveSeed seedOpt entropy) rawSpikes.length (tmplNumPhases tm))
    templates := tm
    nbefore := nbefore
    numSamples := numSamples
    nch := nch
    background := bg }

/-- The serialized construction parameters of an injection recording:
the spike train, the template tensor, the resolved phase vector and the
background's own parameters — never generated trace data. -/
structure InjRecDict where
  rawSpikes : List (Nat × Nat × Nat)
  phases : List Nat
  templates : List (List (List (List Rat)))
  nbefore : Nat
  numSamples : List Nat
  nch : Nat
  background : Option NoiseRecDict
deriving Repr, DecidableEq

/-- `InjectTemplatesRecording.to_dict`. -/
def injToDict (s : InjRecState) : InjRecDict :=
  ⟨s.rawSpikes, s.phases, s.templates, s.nbefore, s.numSamples, s.nch,
    s.background.map noiseToDict⟩

/-- Reconstruction of an injection recording from its parameters alone: the
constructor receives the stored upsample vector, so no fresh phase draw
happens (equivalent to `mkInjRec` with `upsOpt = some d.phases`). -/
def injFromDict (d : InjRecDict) (entropy : Nat) : InjRecState :=
  { rawSpikes := d.rawSpikes
    phases := d.phases
    templates := d.templates
    nbefore := d.nbefore
    numSamples := d.numSamples
    nch := d.nch
    background := d.background.map (fun b => noiseFromDict b entropy) }

/-- Floor of a rational, clamped to `Nat` (frame counts from milliseconds). -/
def ratToNatFloor (q : Rat) : Nat := q.floor.toNat

/-- The result of `generate_templates`: a 3-D tensor, or a 4-D tensor when an
upsample factor is requested (spec §4.3 step 4). -/
inductive TemplatesTensor where
  | t3 : List (List (List Rat)) → TemplatesTensor
  | t4 : List (List (List (List Rat))) → TemplatesTensor
deriving Repr, DecidableEq

/-- A seeded, reproducible per-unit shape parameter draw inside a configured
range (spec §4.3 step 1). -/
def unitAlpha (seed u : Nat) : Rat := 50 + (mix64 seed u 3 % 100 : Nat)

/-- The canonical parametric pulse value of one unit at sub-sample position
`t + phase/U` (spec §4.3 steps 2 and 4): a smoothed biphasic pulse, here a
rational rise-and-fall shape scaled by the unit's amplitude. -/
def waveValue (seed u t phase numPhases : Nat) : Rat :=
  unitAlpha seed u * ((1 : Rat) / (1 + (t * numPhases + phase : Nat)) -
    (1 : Rat) / (2 + (t * numPhases + phase : Nat)))

/-- Squared Euclidean distance between a unit location and a channel
location. -/
def distSq (p q : Rat × Rat) : Rat :=
  (p.1 - q.1) * (p.1 - q.1) + (p.2 - q.2) * (p.2 - q.2)

/-- Spatial attenuation: a monotonically decreasing function of distance,
bounded away from any singularity (spec §4.3 step 3). -/
def attenuation (d2 : Rat) : Rat := 1 / (1 + d2)

/-- `generate_templates` (spec §4.3): per-unit canonical waveforms broadcast
over channels with distance attenuation; `upsample_factor = U` adds a fourth
axis of `U` phase-shifted resamples. -/
def generateTemplates (chanLocs unitLocs : List (Rat × Rat)) (fs msBefore msAfter : Rat)
    (seed : Nat) (upsampleFactor : Option Nat) : TemplatesTensor :=
  let nb := ratToNatFloor (fs * msBefore / 1000)
  let na := ratToNatFloor (fs * msAfter / 1000)
  let ns := nb + na
  match upsampleFactor with
  | none =>
      TemplatesTensor.t3 ((List.range unitLocs.length).map (fun u =>
        (List.range ns).map (fun t =>
          (List.range chanLocs.length).map (fun c =>
            waveValue seed u t 0 1 *
              attenuation (distSq (unitLocs.getD u (0, 0)) (chanLocs.getD c (0, 0)))))))
  | some upsFactor =>
      TemplatesTensor.t4 ((List.range unitLocs.length).map (fun u =>
        (List.range ns).map (fun t =>
          (List.range chanLocs.length).map (fun c =>
            (List.range upsFactor).map (fun p =>
              waveValue seed u t p upsFactor *
                attenuation (distSq (unitLocs.getD u (0, 0)) (chanLocs.getD c (0, 0))))))))

/-- Decidable check that a tensor is 3-D with `shape[0] = numUnits` and
`shape[2] = numChannels`. -/
def tensorIs3WithShape (tt : TemplatesTensor) (numUnits numChannels : Nat) : Bool :=
  match tt with
  | TemplatesTensor.t3 x =>
      x.length == numUnits &&
      x.all (fun uwf => uwf.all (fun row => row.length == numChannels))
  | TemplatesTensor.t4 _ => false

/-- Decidable check that a tensor is 4-D with `shape[0] = numUnits`,
`shape[2] = numChannels` and `shape[3] = numPhases`. -/
def tensorIs4WithShape (tt : TemplatesTensor) (numUnits numChannels numPhases : Nat) : Bool :=
  match tt with
  | TemplatesTensor.t3 _ => false
  | TemplatesTensor.t4 x =>
      x.length == numUnits &&
      x.all (fun uwf => uwf.all (fun row =>
        row.length == numChannels && row.all (fun cell => cell.length == numPhases)))

/-- The body of one segment of `generate_sorting`: seeded base spikes over the
whole segment, plus, when border spikes are enabled, `nBorder` spikes inside
each of the two `border`-sample edge regions; the segment's records are then
sorted by sample index (spec §3 sortedness invariant). -/
def sortingSegmentSpikes (seed numUnits seg segLen border nBase nBorder : Nat)
    (withBorders : Bool) : List (Nat × Nat) :=
  let base := (List.range nBase).map
    (fun k => (mix64 seed seg k % segLen, k % numUnits))
  let low := (List.range nBorder).map
    (fun k => (mix64 (seed + 1) seg k % border, k % numUnits))
  let high := (List.range nBorder).map
    (fun k => (segLen - 1 - mix64 (seed + 2) seg k % border, k % numUnits))
  let chosen := if withBorders then base ++ low ++ high else base
  chosen.mergeSort (fun a b => decide (a.1 ≤ b.1))

/-- `generate_sorting` followed by `to_spike_vector(concatenated=False)`: one
record list per segment. -/
def generateSortingSegments (seed numUnits : Nat) (segLens : List Nat)
    (border nBase nBorder : Nat) (withBorders : Bool) : List (List Spike) :=
  (List.range segLens.length).map (fun sg =>
    (sortingSegmentSpikes seed numUnits sg (segLens.getD sg 0) border nBase nBorder
      withBorders).map (fun su => ⟨sg, su.1, su.2, 0⟩))

/-- `to_spike_vector(concatenated=True)`: the segments flattened in order. -/
def generateSortingSpikeVector (seed numUnits : Nat) (segLens : List Nat)
    (border nBase nBorder : Nat) (withBorders : Bool) : List Spike :=
  (generateSortingSegments seed numUnits segLens border nBase nBorder withBorders).flatten

end SpikeGen

namespace SpikeTemplates

/-- A successful construction means the consistency check passed and the
result is exactly the assembled record. -/
theorem mkTemplates_ok {arr : List (List (List Rat))} {fs : Rat} {nb : Int}
    {mask : Option (List (List Bool))} {cids uids : Option (List Nat)}
    {check : Bool} {t : Templates}
    (h : mkTemplates arr fs nb mask cids uids check = Except.ok t) :
    sparsityViolation arr mask cids uids check = false ∧
      t = mkRecord arr fs nb mask cids uids check := by
  unfold mkTemplates at h
  split at h
  · exact absurd h (by simp)
  · rename_i hv
    exact ⟨by simpa using hv, (Except.ok.inj h).symm⟩

/-- `Templates.__eq__` is reflexive. -/
theorem templatesEq_refl (t : Templates) : templatesEq t t = true := by
  simp [templatesEq]

/-- Traversing an element-wise encoded list recovers the list. -/
theorem optTraverse_map {f : α → JVal} {g : JVal → Option α}
    (hfg : ∀ x, g (f x) = some x) : ∀ l : List α, optTraverse g (l.map f) = some l
  | [] => rfl
  | x :: xs => by simp [optTraverse, hfg, optTraverse_map hfg xs]

/-- Decoding inverts the element-wise array encoding. -/
theorem decodeListJ_encodeListJ {f : α → JVal} {g : JVal → Option α}
    (hfg : ∀ x, g (f x) = some x) (l : List α) :
    decodeListJ g (encodeListJ f l) = some l := by
  simp [encodeListJ, decodeListJ, optTraverse_map hfg]

/-- Decoding inverts the number encoding. -/
theorem decodeNumJ_jnum (q : Rat) : decodeNumJ (JVal.jnum q) = some q := rfl

/-- Decoding inverts the boolean encoding. -/
theorem decodeBoolJ_encodeBoolJ (b : Bool) : decodeBoolJ (encodeBoolJ b) = some b := by
  cases b <;> rfl

/-- Decoding inverts the id encoding. -/
theorem decodeNatJ_encodeNatJ (n : Nat) : decodeNatJ (encodeNatJ n) = some n := by
  simp [encodeNatJ, decodeNatJ]

/-- The textual encoding of the interchange record round-trips exactly. -/
theorem decodeDictJ_encodeDictJ (d : TemplatesDict) :
    decodeDictJ (encodeDictJ d) = some d := by
  obtain ⟨ta, mk, cids, uids, fs, nb⟩ := d
  have hm : ∀ m : List (List Bool),
      decodeListJ (decodeListJ decodeBoolJ) (encodeListJ (encodeListJ encodeBoolJ) m) =
        some m :=
    decodeListJ_encodeListJ (decodeListJ_encodeListJ decodeBoolJ_encodeBoolJ)
  cases mk with
  | none =>
      simp [encodeDictJ, decodeDictJ, decodeNumJ, decodeIntJ,
        decodeListJ_encodeListJ (decodeListJ_encodeListJ (decodeListJ_encodeListJ decodeNumJ_jnum)),
        decodeListJ_encodeListJ decodeNatJ_encodeNatJ]
  | some m =>
      have hm2 := hm m
      have h1 := decodeListJ_encodeListJ
        (decodeListJ_encodeListJ (decodeListJ_encodeListJ decodeNumJ_jnum)) ta
      have h3 := decodeListJ_encodeListJ decodeNatJ_encodeNatJ cids
      have h4 := decodeListJ_encodeListJ decodeNatJ_encodeNatJ uids
      simp only [encodeListJ] at hm2 h1 h3 h4
      simp [encodeDictJ, decodeDictJ, decodeNumJ, decodeIntJ, encodeListJ, hm2, h1, h3, h4]

/-- C6: for every constructed `Templates`, `num_samples = nbefore + nafter`,
with `nafter` the derived attribute `num_samples - nbefore`. -/
theorem c6_num_samples_split (arr : List (List (List Rat))) (fs : Rat) (nb : Int)
    (mask : Option (List (List Bool))) (cids uids : Option (List Nat))
    (check : Bool) (t : Templates)
    (h : mkTemplates arr fs nb mask cids uids check = Except.ok t) :
    (t.num_samples : Int) = t.nbefore + t.nafter ∧
      t.nafter = (t.num_samples : Int) - t.nbefore := by
  obtain ⟨-, rfl⟩ := mkTemplates_ok h
  simp [mkRecord]

/-- C6 witness at a concrete dense construction. -/
theorem c6_witness :
    ((mkRecord [[[1, 2], [3, 4]]] 30000 1 none none none true).num_samples : Int) =
        (mkRecord [[[1, 2], [3, 4]]] 30000 1 none none none true).nbefore +
        (mkRecord [[[1, 2], [3, 4]]] 30000 1 none none none true).nafter ∧
      (mkRecord [[[1, 2], [3, 4]]] 30000 1 none none none true).nafter =
        ((mkRecord [[[1, 2], [3, 4]]] 30000 1 none none none true).num_samples : Int) -
        (mkRecord [[[1, 2], [3, 4]]] 30000 1 none none none true).nbefore :=
  c6_num_samples_split [[[1, 2], [3, 4]]] 30000 1 none none none true
    (mkRecord [[[1, 2], [3, 4]]] 30000 1 none none none true) (by rfl)

/-- Shape of the densified tensor of a sparse `Templates`. -/
theorem getDense_shape (t : Templates) (sp : ChannelSparsity)
    (hsp : t.sparsity = some sp) :
    t.getDense.length = t.num_units ∧
      ∀ uwf ∈ t.getDense, uwf.length = t.num_samples ∧
        ∀ row ∈ uwf, row.length = t.num_channels := by
  unfold Templates.getDense
  rw [hsp]
  refine ⟨by simp, ?_⟩
  intro uwf huwf
  obtain ⟨u, -, rfl⟩ := List.mem_map.mp huwf
  refine ⟨by simp, ?_⟩
  intro row hrow
  obtain ⟨s, -, rfl⟩ := List.mem_map.mp hrow
  simp

/-- C10: with a sparsity mask, `num_channels` is the mask's channel count
(the full dense count), not the sparse array's third dimension; without one it
is `templates_array.shape[2]`; `channel_ids` defaults to `arange(num_channels)`
and the densified tensor has shape `(num_units, num_samples, num_channels)`. -/
theorem c10_num_channels_source (arr : List (List (List Rat))) (fs : Rat) (nb : Int)
    (mask : Option (List (List Bool))) (cids uids : Option (List Nat))
    (check : Bool) (t : Templates)
    (h : mkTemplates arr fs nb mask cids uids check = Except.ok t) :
    (∀ m, mask = some m →
      t.num_channels = (m.getD 0 []).length ∧
      t.getDense.length = t.num_units ∧
      (∀ uwf ∈ t.getDense, uwf.length = t.num_samples ∧
        ∀ row ∈ uwf, row.length = t.num_channels)) ∧
    (mask = none → t.num_channels = ((arr.getD 0 []).getD 0 []).length) ∧
    (cids = none → t.channel_ids = List.range t.num_channels) := by
  obtain ⟨-, rfl⟩ := mkTemplates_ok h
  refine ⟨?_, ?_, ?_⟩
  · rintro m rfl
    have hsp : (mkRecord arr fs nb (some m) cids uids check).sparsity =
        some ⟨m, tUnitIds arr uids, tChannelIds arr (some m) cids⟩ := rfl
    obtain ⟨hlen, hmem⟩ := getDense_shape _ _ hsp
    exact ⟨rfl, hlen, hmem⟩
  · rintro rfl
    rfl
  · rintro rfl
    rfl

/-- C10 witness: a sparse construction whose sparse width (1) differs from the
mask channel count (2). -/
theorem c10_witness :
    (∀ m, (some [[true, false], [false, true]] : Option (List (List Bool))) = some m →
      (mkRecord [[[1], [2]], [[3], [4]]] 30000 1 (some [[true, false], [false, true]])
          none none true).num_channels = (m.getD 0 []).length ∧
      (mkRecord [[[1], [2]], [[3], [4]]] 30000 1 (some [[true, false], [false, true]])
          none none true).getDense.length =
        (mkRecord [[[1], [2]], [[3], [4]]] 30000 1 (some [[true, false], [false, true]])
          none none true).num_units ∧
      (∀ uwf ∈ (mkRecord [[[1], [2]], [[3], [4]]] 30000 1
          (some [[true, false], [false, true]]) none none true).getDense,
        uwf.length = (mkRecord [[[1], [2]], [[3], [4]]] 30000 1
          (some [[true, false], [false, true]]) none none true).num_samples ∧
        ∀ row ∈ uwf, row.length = (mkRecord [[[1], [2]], [[3], [4]]] 30000 1
          (some [[true, false], [false, true]]) none none true).num_channels)) ∧
    ((some [[true, false], [false, true]] : Option (List (List Bool))) = none →
      (mkRecord [[[1], [2]], [[3], [4]]] 30000 1 (some [[true, false], [false, true]])
          none none true).num_channels =
        (([[[1], [2]], [[3], [4]]].getD 0 []).getD 0 []).length) ∧
    ((none : Option (List Nat)) = none →
      (mkRecord [[[1], [2]], [[3], [4]]] 30000 1 (some [[true, false], [false, true]])
          none none true).channel_ids =
        List.range (mkRecord [[[1], [2]], [[3], [4]]] 30000 1
          (some [[true, false], [false, true]]) none none true).num_channels) :=
  c10_num_channels_source [[[1], [2]], [[3], [4]]] 30000 1
    (some [[true, false], [false, true]]) none none true
    (mkRecord [[[1], [2]], [[3], [4]]] 30000 1 (some [[true, false], [false, true]])
      none none true) (by rfl)

/-- C4 (amended): with the default `check_for_consistent_sparsity=True`, a
sparsity mask whose supplied templates are not actually sparse makes
construction fail with the descriptive `ValueError`, producing no value. -/
theorem c4_sparsity_error (arr : List (List (List Rat))) (fs : Rat) (nb : Int)
    (m : List (List Bool)) (cids uids : Option (List Nat))
    (h : passedTemplatesSparse arr (some m) cids uids = false) :
    mkTemplates arr fs nb (some m) cids uids true =
      Except.error "Sparsity mask passed but the templates are not sparse" := by
  unfold mkTemplates
  have hv : sparsityViolation arr (some m) cids uids true = true := by
    simp [sparsityViolation, h]
  simp [hv]

/-- C4 counterexample: with `check_for_consistent_sparsity=False` the same
violating input is accepted silently and a `Templates` value is produced. -/
theorem c4_counterexample :
    passedTemplatesSparse [[[5]]] (some [[false]]) none none = false ∧
    mkTemplates [[[5]]] 30000 0 (some [[false]]) none none false =
      Except.ok (mkRecord [[[5]]] 30000 0 (some [[false]]) none none false) := by
  constructor
  · decide
  · rfl

/-- C4 witness: the violating input is rejected under the default check. -/
theorem c4_witness :
    mkTemplates [[[5]]] 30000 0 (some [[false]]) none none true =
      Except.error "Sparsity mask passed but the templates are not sparse" :=
  c4_sparsity_error [[[5]]] 30000 0 [[false]] none none (by decide)

/-- C3 (amended): for every `Templates` constructed with the default
`check_for_consistent_sparsity=True`, `from_dict (to_dict t)` and
`from_json (to_json t)` reconstruct `t` itself, and `__eq__` holds. -/
theorem c3_dict_json_roundtrip (arr : List (List (List Rat))) (fs : Rat) (nb : Int)
    (mask : Option (List (List Bool))) (cids uids : Option (List Nat)) (t : Templates)
    (h : mkTemplates arr fs nb mask cids uids true = Except.ok t) :
    Templates.fromDict t.toDict = Except.ok t ∧
    templatesFromJson t.toJson = Except.ok t ∧
    templatesEq t t = true := by
  obtain ⟨hv, rfl⟩ := mkTemplates_ok h
  have hv2 : sparsityViolation arr mask (some (tChannelIds arr mask cids))
      (some (tUnitIds arr uids)) true = false := hv
  have key : Templates.fromDict (Templates.toDict (mkRecord arr fs nb mask cids uids true)) =
      Except.ok (mkRecord arr fs nb mask cids uids true) := by
    show mkTemplates arr fs nb mask (some (tChannelIds arr mask cids))
      (some (tUnitIds arr uids)) true = _
    unfold mkTemplates
    rw [hv2]
    rfl
  refine ⟨key, ?_, templatesEq_refl _⟩
  show templatesFromJson (encodeDictJ (Templates.toDict (mkRecord arr fs nb mask cids uids true))) = _
  unfold templatesFromJson
  rw [decodeDictJ_encodeDictJ]
  exact key

/-- C3 counterexample: a `Templates` built with
`check_for_consistent_sparsity=False` reconstructs (via `from_dict`, which uses
the default `True`) to a value that `__eq__` rejects, because `astuple`
includes the `check_for_consistent_sparsity` flag. -/
theorem c3_counterexample :
    mkTemplates [[[5]]] 30000 1 none none none false =
      Except.ok (mkRecord [[[5]]] 30000 1 none none none false) ∧
    Templates.fromDict (Templates.toDict (mkRecord [[[5]]] 30000 1 none none none false)) =
      Except.ok (mkRecord [[[5]]] 30000 1 none (some [0]) (some [0]) true) ∧
    templatesEq (mkRecord [[[5]]] 30000 1 none none none false)
      (mkRecord [[[5]]] 30000 1 none (some [0]) (some [0]) true) = false := by
  refine ⟨rfl, by rfl, by decide⟩

/-- `getD` at an in-bounds index is `getElem`. -/
theorem getD_of_lt (l : List α) (i : Nat) (d : α) (h : i < l.length) :
    l.getD i d = l.get ⟨i, h⟩ := by
  simp [List.getD_eq_getElem?_getD, List.getElem?_eq_getElem h]

/-- `getD` through a map over `List.range`. -/
theorem getD_map_range (f : Nat → α) (n i : Nat) (d : α) (h : i < n) :
    ((List.range n).map f).getD i d = f i := by
  have hlen : i < ((List.range n).map f).length := by simpa using h
  rw [getD_of_lt _ _ _ hlen]
  simp

/-- Membership in the active indices of a mask row. -/
theorem mem_activeIndices {mr : List Bool} {c : Nat} :
    c ∈ activeIndices mr ↔ c < mr.length ∧ mr.getD c false = true := by
  simp [activeIndices, List.mem_filter, List.mem_range]

/-- The active indices of a mask row hold no duplicate. -/
theorem activeIndices_nodup (mr : List Bool) : (activeIndices mr).Nodup :=
  (List.nodup_range _).filter _

/-- On a duplicate-free list, searching for the `j`-th element finds `j`. -/
theorem findIdx?_beq_self (l : List Nat) (hl : l.Nodup) :
    ∀ j : Nat, ∀ hj : j < l.length,
      l.findIdx? (fun a => a == l.get ⟨j, hj⟩) = some j := by
  induction l with
  | nil => intro j hj; simp at hj
  | cons x xs ih =>
      intro j hj
      cases j with
      | zero => simp [List.findIdx?_cons]
      | succ j =>
          have hj' : j < xs.length := by simpa using hj
          have hmem : xs.get ⟨j, hj'⟩ ∈ xs := by
            simpa using List.getElem_mem hj'
          have hx : (x == (x :: xs).get ⟨j + 1, hj⟩) = false := by
            have hne : x ≠ xs.get ⟨j, hj'⟩ := by
              intro he
              exact (List.nodup_cons.mp hl).1 (he ▸ hmem)
            simpa using hne
          rw [List.findIdx?_cons, hx]
          simp only [if_neg Bool.false_ne_true]
          rw [List.findIdx?_succ]
          have := ih (List.nodup_cons.mp hl).2 j hj'
          simp only [List.get_eq_getElem, List.getElem_cons_succ] at this ⊢
          rw [this]
          rfl

/-- Searching for an absent value finds nothing. -/
theorem findIdx?_beq_none {l : List Nat} {c : Nat} (hc : c ∉ l) :
    l.findIdx? (fun a => a == c) = none := by
  rw [List.findIdx?_eq_none_iff]
  intro x hx
  simp only [beq_eq_false_iff_ne, ne_eq]
  intro he
  exact hc (he ▸ hx)

/-- A densified entry on a channel outside the mask is zero. -/
theorem densifyRowEntry_of_not_active {mr : List Bool} {row : List Rat} {c : Nat}
    (h : c ∉ activeIndices mr) : densifyRowEntry mr row c = 0 := by
  unfold densifyRowEntry
  rw [findIdx?_beq_none h]

/-- A densified entry on the `j`-th active channel is the `j`-th sparse
column. -/
theorem densifyRowEntry_active (mr : List Bool) (row : List Rat) (j : Nat)
    (hj : j < (activeIndices mr).length) :
    densifyRowEntry mr row ((activeIndices mr).get ⟨j, hj⟩) = row.getD j 0 := by
  unfold densifyRowEntry
  rw [findIdx?_beq_self (activeIndices mr) (activeIndices_nodup mr) j hj]

/-- One row of the densified tensor of a sparse record, as a map over the
dense channel range. -/
theorem getDense_row (arr : List (List (List Rat))) (fs : Rat) (nb : Int)
    (m : List (List Bool)) (cids uids : Option (List Nat)) (check : Bool)
    (u s : Nat) (hu : u < tNumUnits arr) (hs : s < tNumSamples arr) :
    (((mkRecord arr fs nb (some m) cids uids check).getDense.getD u []).getD s []) =
      (List.range (tNumChannels arr (some m))).map
        (fun c => densifyRowEntry (m.getD u []) ((arr.getD u []).getD s []) c) := by
  have h1 : (mkRecord arr fs nb (some m) cids uids check).getDense =
      (List.range (tNumUnits arr)).map (fun v =>
        (List.range (tNumSamples arr)).map (fun w =>
          (List.range (tNumChannels arr (some m))).map (fun c =>
            densifyRowEntry (m.getD v []) ((arr.getD v []).getD w []) c))) := rfl
  rw [h1, getD_map_range _ _ _ _ hu, getD_map_range _ _ _ _ hs]

/-- The components of `templatesShapeOK`. -/
theorem shapeOK_fields {arr : List (List (List Rat))} {m : List (List Bool)}
    (hs : templatesShapeOK arr m = true) :
    m.length = arr.length ∧
    (∀ wf ∈ arr, wf.length = tNumSamples arr ∧
      ∀ row ∈ wf, row.length = ((arr.getD 0 []).getD 0 []).length) ∧
    (∀ r ∈ m, r.length = (m.getD 0 []).length) ∧
    (∀ r ∈ m, (activeIndices r).length ≤ ((arr.getD 0 []).getD 0 []).length) := by
  unfold templatesShapeOK at hs
  simp only [Bool.and_eq_true, beq_iff_eq, List.all_eq_true, decide_eq_true_eq] at hs
  exact ⟨hs.1.1.1, fun wf hwf => ⟨(hs.1.1.2 wf hwf).1, (hs.1.1.2 wf hwf).2⟩, hs.1.2, hs.2⟩

/-- A successful checked sparse construction certifies every unit's padding
columns to be zero. -/
theorem rows_sparse_of_ok {arr : List (List (List Rat))} {m : List (List Bool)}
    {cids uids : Option (List Nat)}
    (hv : sparsityViolation arr (some m) cids uids true = false)
    (hu : (tUnitIds arr uids).length = arr.length)
    {u : Nat} (hult : u < arr.length) :
    ∀ row ∈ arr.getD u [],
      ((row.drop ((activeIndices (m.getD u [])).length)).all (fun v => v == 0)) = true := by
  have hp : passedTemplatesSparse arr (some m) cids uids = true := by
    revert hv
    unfold sparsityViolation
    cases hpass : passedTemplatesSparse arr (some m) cids uids <;> simp [hpass]
  unfold passedTemplatesSparse tSparsity at hp
  simp only [Option.map_some'] at hp
  rw [List.all_eq_true] at hp
  have hm : u ∈ List.range ((tUnitIds arr uids).length) := by
    rw [List.mem_range, hu]; exact hult
  have := hp u hm
  unfold ChannelSparsity.areWaveformsSparse at this
  rw [List.all_eq_true] at this
  intro row hrow
  exact this row hrow

/-- Re-sparsifying the densification of one sparse row against its mask row
recovers the row exactly, given the padding columns are zero. -/
theorem sparsify_densify_row (mr : List Bool) (row : List Rat) (n : Nat)
    (hmn : mr.length = n)
    (hrl : (activeIndices mr).length ≤ row.length)
    (hz : ((row.drop (activeIndices mr).length).all (fun v => v == 0)) = true) :
    sparsifyRow mr ((List.range n).map (fun c => densifyRowEntry mr row c))
      row.length = row := by
  unfold sparsifyRow
  apply List.ext_getElem
  · simp only [List.length_append, List.length_map, List.length_replicate]
    omega
  · intro i h1 h2
    by_cases hik : i < (activeIndices mr).length
    · have hmaplen : i < ((activeIndices mr).map
          (fun c => ((List.range n).map (fun d => densifyRowEntry mr row d)).getD c 0)).length := by
        simpa using hik
      rw [List.getElem_append_left hmaplen]
      rw [List.getElem_map]
      have hc_mem : (activeIndices mr).get ⟨i, hik⟩ ∈ activeIndices mr := by
        simpa using List.getElem_mem hik
      have hc_lt : (activeIndices mr).get ⟨i, hik⟩ < n := by
        rw [← hmn]
        exact (mem_activeIndices.mp hc_mem).1
      have hstep : ((List.range n).map (fun d => densifyRowEntry mr row d)).getD
          ((activeIndices mr).get ⟨i, hik⟩) 0 =
            densifyRowEntry mr row ((activeIndices mr).get ⟨i, hik⟩) := by
        exact getD_map_range _ n _ 0 hc_lt
      simp only [List.get_eq_getElem] at hstep ⊢
      rw [hstep]
      have hact := densifyRowEntry_active mr row i hik
      simp only [List.get_eq_getElem] at hact
      rw [hact]
      exact getD_of_lt row i 0 h2
    · have hge : ((activeIndices mr).map
          (fun c => ((List.range n).map (fun d => densifyRowEntry mr row d)).getD c 0)).length ≤ i := by
        simpa using Nat.le_of_not_lt hik
      rw [List.getElem_append_right hge]
      simp only [List.length_map, List.getElem_replicate]
      have hdlt : i - (activeIndices mr).length <
          (row.drop (activeIndices mr).length).length := by
        simp only [List.length_drop]
        omega
      have hmem : (row.drop (activeIndices mr).length).get ⟨_, hdlt⟩ ∈
          row.drop (activeIndices mr).length := by
        simpa using List.getElem_mem hdlt
      have hzero := (List.all_eq_true.mp hz) _ hmem
      rw [beq_iff_eq] at hzero
      have hidx : (row.drop (activeIndices mr).length).get ⟨_, hdlt⟩ = row.get ⟨i, h2⟩ := by
        simp only [List.get_eq_getElem, List.getElem_drop]
        congr 1
        omega
      rw [hidx] at hzero
      exact hzero.symm

/-- C5 (sparsity round-trip): for every checked sparse `Templates`, the
densified tensor is zero on every channel outside a unit's mask, carries the
unit's sparse waveform values on its active channels, and re-sparsifying a
densified row against the original mask recovers the original sparse row
exactly. -/
theorem c5_sparsity_roundtrip (arr : List (List (List Rat))) (fs : Rat) (nb : Int)
    (m : List (List Bool)) (cids uids : Option (List Nat)) (t : Templates)
    (h : mkTemplates arr fs nb (some m) cids uids true = Except.ok t)
    (hs : templatesShapeOK arr m = true)
    (hu : (tUnitIds arr uids).length = arr.length)
    (u s c j : Nat)
    (hult : u < t.num_units) (hslt : s < t.num_samples) (hclt : c < t.num_channels)
    (hcm : (m.getD u []).getD c false = false)
    (hj : j < (activeIndices (m.getD u [])).length) :
    ((t.getDense.getD u []).getD s []).getD c 0 = 0 ∧
    ((t.getDense.getD u []).getD s []).getD ((activeIndices (m.getD u [])).getD j 0) 0 =
      ((arr.getD u []).getD s []).getD j 0 ∧
    sparsifyRow (m.getD u []) ((t.getDense.getD u []).getD s [])
        (((arr.getD 0 []).getD 0 []).length) = (arr.getD u []).getD s [] := by
  obtain ⟨hv, rfl⟩ := mkTemplates_ok h
  have hult' : u < tNumUnits arr := hult
  have hslt' : s < tNumSamples arr := hslt
  have hclt' : c < tNumChannels arr (some m) := hclt
  obtain ⟨hml, hrect, hmrows, hkw⟩ := shapeOK_fields hs
  have hrow := getDense_row arr fs nb m cids uids true u s hult' hslt'
  rw [hrow]
  -- abbreviations
  have hmu : u < m.length := by rw [hml]; exact hult'
  have hmrow_mem : m.getD u [] ∈ m := by
    rw [getD_of_lt m u [] hmu]
    simpa using List.getElem_mem hmu
  have hmr_len : (m.getD u []).length = tNumChannels arr (some m) := hmrows _ hmrow_mem
  have hwf_mem : arr.getD u [] ∈ arr := by
    rw [getD_of_lt arr u [] hult']
    simpa using List.getElem_mem hult'
  obtain ⟨hwf_len, hwf_rows⟩ := hrect _ hwf_mem
  have hslt2 : s < (arr.getD u []).length := by rw [hwf_len]; exact hslt'
  have harow_mem : (arr.getD u []).getD s [] ∈ arr.getD u [] := by
    rw [getD_of_lt _ s [] hslt2]
    simpa using List.getElem_mem hslt2
  have harow_len : ((arr.getD u []).getD s []).length =
      ((arr.getD 0 []).getD 0 []).length := hwf_rows _ harow_mem
  have hk_le : (activeIndices (m.getD u [])).length ≤
      ((arr.getD 0 []).getD 0 []).length := hkw _ hmrow_mem
  have hzero := rows_sparse_of_ok hv hu hult' _ harow_mem
  -- the three parts
  refine ⟨?_, ?_, ?_⟩
  · -- outside the mask
    rw [getD_map_range _ _ _ _ hclt']
    apply densifyRowEntry_of_not_active
    intro hmem
    rw [mem_activeIndices] at hmem
    rw [hmem.2] at hcm
    exact absurd hcm (by decide)
  · -- on the j-th active channel
    have hcj := getD_of_lt (activeIndices (m.getD u [])) j 0 hj
    rw [hcj]
    have hcj_mem : (activeIndices (m.getD u [])).get ⟨j, hj⟩ ∈ activeIndices (m.getD u []) := by
      simpa using List.getElem_mem hj
    have hcj_lt : (activeIndices (m.getD u [])).get ⟨j, hj⟩ < tNumChannels arr (some m) := by
      rw [← hmr_len]
      exact (mem_activeIndices.mp hcj_mem).1
    rw [getD_map_range _ _ _ _ hcj_lt]
    exact densifyRowEntry_active (m.getD u []) ((arr.getD u []).getD s []) j hj
  · -- re-sparsification recovers the row
    rw [← harow_len]
    apply sparsify_densify_row _ _ _ hmr_len
    · rw [harow_len]; exact hk_le
    · exact hzero

/-- C5 witness at a concrete two-unit sparse construction. -/
theorem c5_witness :
    (((mkRecord [[[1], [2]], [[3], [4]]] 30000 1 (some [[true, false], [false, true]])
          none none true).getDense.getD 0 []).getD 0 []).getD 1 0 = 0 ∧
    (((mkRecord [[[1], [2]], [[3], [4]]] 30000 1 (some [[true, false], [false, true]])
          none none true).getDense.getD 0 []).getD 0 []).getD
        ((activeIndices ([[true, false], [false, true]].getD 0 [])).getD 0 0) 0 =
      (([[[1], [2]], [[3], [4]]].getD 0 []).getD 0 []).getD 0 0 ∧
    sparsifyRow ([[true, false], [false, true]].getD 0 [])
        (((mkRecord [[[1], [2]], [[3], [4]]] 30000 1 (some [[true, false], [false, true]])
          none none true).getDense.getD 0 []).getD 0 [])
        ((([[[1], [2]], [[3], [4]]] : List (List (List Rat))).getD 0 []).getD 0 []).length =
      (([[[1], [2]], [[3], [4]]].getD 0 []).getD 0 []) :=
  c5_sparsity_roundtrip [[[1], [2]], [[3], [4]]] 30000 1 [[true, false], [false, true]]
    none none
    (mkRecord [[[1], [2]], [[3], [4]]] 30000 1 (some [[true, false], [false, true]])
      none none true)
    (by rfl) (by decide) (by decide) 0 0 1 0
    (by decide) (by decide) (by decide) (by decide) (by decide)

/-- C3 witness: the round trip at a concrete dense construction. -/
theorem c3_witness :
    Templates.fromDict (Templates.toDict (mkRecord [[[1, 2], [3, 4]]] 30000 1 none none none true)) =
      Except.ok (mkRecord [[[1, 2], [3, 4]]] 30000 1 none none none true) ∧
    templatesFromJson (Templates.toJson (mkRecord [[[1, 2], [3, 4]]] 30000 1 none none none true)) =
      Except.ok (mkRecord [[[1, 2], [3, 4]]] 30000 1 none none none true) ∧
    templatesEq (mkRecord [[[1, 2], [3, 4]]] 30000 1 none none none true)
      (mkRecord [[[1, 2], [3, 4]]] 30000 1 none none none true) = true :=
  c3_dict_json_roundtrip [[[1, 2], [3, 4]]] 30000 1 none none none
    (mkRecord [[[1, 2], [3, 4]]] 30000 1 none none none true) (by rfl)

end SpikeTemplates

namespace SpikeGen

/-- Every served block has `noise_block_size` rows. -/
theorem blockOf_length (st : Strategy) (seed seg bs nch i : Nat) :
    (blockOf st seed seg bs nch i).length = bs := by
  cases st <;> simp only [blockOf]
  · split <;> simp [noiseBlock]
  · simp [noiseBlock]

/-- Dropping from a `range'` shifts its start. -/
theorem drop_range' : ∀ (k a n : Nat), (List.range' a n).drop k = List.range' (a + k) (n - k)
  | 0, _, _ => by simp
  | k + 1, a, 0 => by simp
  | k + 1, a, n + 1 => by
      rw [List.range'_succ]
      simp only [List.drop_succ_cons]
      rw [drop_range' k (a + 1) n]
      congr 1 <;> omega

/-- Taking from a `range'` truncates its length. -/
theorem take_range' : ∀ (k a n : Nat), (List.range' a n).take k = List.range' a (min k n)
  | 0, _, _ => by simp
  | k + 1, a, 0 => by simp
  | k + 1, a, n + 1 => by
      rw [List.range'_succ]
      simp only [List.take_succ_cons]
      rw [take_range' k (a + 1) n]
      have hmin : min (k + 1) (n + 1) = min k n + 1 := by omega
      rw [hmin, List.range'_succ]

/-- A block equals the per-position noise rows over its absolute range. -/
theorem blockOf_eq_map (st : Strategy) (seed seg bs nch : Nat) (hbs : 0 < bs) (b : Nat) :
    blockOf st seed seg bs nch b =
      (List.range' (b * bs) bs).map (sampleRow st seed seg bs nch) := by
  apply List.ext_getElem
  · simp [blockOf_length]
  · intro t h1 h2
    have ht : t < bs := by simpa [blockOf_length] using h1
    rw [List.getElem_map, List.getElem_range']
    simp only [one_mul]
    unfold sampleRow
    have hdiv : (b * bs + t) / bs = b := by
      rw [Nat.add_comm, Nat.add_mul_div_right _ _ hbs, Nat.div_eq_of_lt ht, Nat.zero_add]
    have hmod : (b * bs + t) % bs = t := by
      rw [Nat.add_comm, Nat.add_mul_mod_self_right, Nat.mod_eq_of_lt ht]
    rw [hdiv, hmod]
    rw [SpikeTemplates.getD_of_lt _ _ _ (by rw [blockOf_length]; exact ht)]
    simp

/-- Stitching consecutive blocks yields the per-position rows over the joint
range. -/
theorem stitched_eq_map (st : Strategy) (seed seg bs nch : Nat) (hbs : 0 < bs)
    (b0 : Nat) : ∀ n : Nat,
    ((List.range n).map (fun j => blockOf st seed seg bs nch (b0 + j))).flatten =
      (List.range' (b0 * bs) (n * bs)).map (sampleRow st seed seg bs nch)
  | 0 => by simp
  | n + 1 => by
      rw [List.range_succ]
      simp only [List.map_append, List.map_cons, List.map_nil, List.flatten_append,
        List.flatten_cons, List.flatten_nil, List.append_nil]
      rw [stitched_eq_map st seed seg bs nch hbs b0 n,
        blockOf_eq_map st seed seg bs nch hbs (b0 + n)]
      rw [← List.map_append]
      have harith : (b0 + n) * bs = b0 * bs + n * bs := by ring
      rw [harith, List.range'_append_1]
      have harith2 : bs + n * bs = (n + 1) * bs := by ring
      rw [harith2]

/-- `get_traces` is the pointwise noise function mapped over the requested
positions: the central position-purity representation. -/
theorem getTraces_eq_map (st : Strategy) (seed seg bs nch startFrame endFrame : Nat)
    (hbs : 0 < bs) :
    getTraces st seed seg bs nch startFrame endFrame =
      (List.range' startFrame (endFrame - startFrame)).map
        (sampleRow st seed seg bs nch) := by
  unfold getTraces
  dsimp only
  rw [stitched_eq_map st seed seg bs nch hbs (startFrame / bs)]
  rw [← List.map_drop, ← List.map_take]
  rw [drop_range', take_range']
  have hfb : startFrame / bs * bs + startFrame % bs = startFrame := by
    rw [Nat.mul_comm]
    exact Nat.div_add_mod startFrame bs
  have hfb2 : startFrame % bs < bs := Nat.mod_lt _ hbs
  have hlb : (endFrame + bs - 1) / bs * bs + (endFrame + bs - 1) % bs =
      endFrame + bs - 1 := by
    rw [Nat.mul_comm]
    exact Nat.div_add_mod (endFrame + bs - 1) bs
  have hlb2 : (endFrame + bs - 1) % bs < bs := Nat.mod_lt _ hbs
  have h1 : startFrame / bs * bs + (startFrame - startFrame / bs * bs) = startFrame := by
    omega
  rw [h1]
  have hmul : ((endFrame + bs - 1) / bs - startFrame / bs) * bs =
      (endFrame + bs - 1) / bs * bs - startFrame / bs * bs := by
    exact Nat.sub_mul _ _ _
  rw [hmul]
  have hminval : min (endFrame - startFrame)
      ((endFrame + bs - 1) / bs * bs - startFrame / bs * bs -
        (startFrame - startFrame / bs * bs)) = endFrame - startFrame := by
    omega
  rw [hminval]

end SpikeGen

namespace SpikeGen

/-- C1 (position purity): for every seed, strategy and nested ranges
`[a,b) ⊆ [c,d)` within one segment, the larger noise query cropped to rows
`[a-c, b-c)` is identical to the direct query — `get_traces` is a pure
function of position. -/
theorem c1_position_purity (st : Strategy) (seed seg bs nch a b c d : Nat)
    (hbs : 0 < bs) (hca : c ≤ a) (hab : a ≤ b) (hbd : b ≤ d) :
    ((getTraces st seed seg bs nch c d).drop (a - c)).take (b - a) =
      getTraces st seed seg bs nch a b := by
  rw [getTraces_eq_map st seed seg bs nch c d hbs,
    getTraces_eq_map st seed seg bs nch a b hbs]
  rw [← List.map_drop, ← List.map_take, drop_range', take_range']
  have h1 : c + (a - c) = a := by omega
  have h2 : min (b - a) (d - c - (a - c)) = b - a := by omega
  rw [h1, h2]

/-- C1 witness: concrete nested ranges under both strategies. -/
theorem c1_witness :
    ((getTraces Strategy.onTheFly 5 0 3 2 1 6).drop 1).take 2 =
        getTraces Strategy.onTheFly 5 0 3 2 2 4 ∧
    ((getTraces Strategy.tilePregenerated 5 0 3 2 1 6).drop 1).take 2 =
        getTraces Strategy.tilePregenerated 5 0 3 2 2 4 :=
  ⟨c1_position_purity Strategy.onTheFly 5 0 3 2 2 4 1 6
      (by decide) (by decide) (by decide) (by decide),
    c1_position_purity Strategy.tilePregenerated 5 0 3 2 2 4 1 6
      (by decide) (by decide) (by decide) (by decide)⟩

/-- C7 (call idempotence): on any noise or injection recording instance,
`get_traces` leaves the instance state untouched, so a repeated identical call
— or a call after any other prior query — returns identical output. -/
theorem c7_call_idempotence :
    (∀ (r : NoiseRecState) (seg a b : Nat),
      getTracesSt ((getTracesSt r seg a b).2) seg a b = getTracesSt r seg a b ∧
      (getTracesSt r seg a b).2 = r) ∧
    (∀ (r : NoiseRecState) (seg a b seg2 a2 b2 : Nat),
      (getTracesSt ((getTracesSt r seg2 a2 b2).2) seg a b).1 =
        (getTracesSt r seg a b).1) ∧
    (∀ (s : InjRecState) (seg a b : Nat),
      injGetTracesSt ((injGetTracesSt s seg a b).2) seg a b = injGetTracesSt s seg a b ∧
      (injGetTracesSt s seg a b).2 = s) ∧
    (∀ (s : InjRecState) (seg a b seg2 a2 b2 : Nat),
      (injGetTracesSt ((injGetTracesSt s seg2 a2 b2).2) seg a b).1 =
        (injGetTracesSt s seg a b).1) :=
  ⟨fun _ _ _ _ => ⟨rfl, rfl⟩, fun _ _ _ _ _ _ _ => rfl,
    fun _ _ _ _ => ⟨rfl, rfl⟩, fun _ _ _ _ _ _ _ => rfl⟩

/-- Reconstructing a constructed noise recording from its serialized
parameters yields the identical state, for any fresh entropy. -/
theorem noise_reconstruct (st : Strategy) (seedOpt : Option Nat)
    (entropy bs nch nseg e2 : Nat) :
    noiseFromDict (noiseToDict (mkNoiseRec st seedOpt entropy bs nch nseg)) e2 =
      mkNoiseRec st seedOpt entropy bs nch nseg := rfl

/-- C2 (reconstruction fidelity): reconstructing a noise or injection
recording from its serialized construction parameters alone and reading the
same range reproduces identical output, also when the seed was unspecified
(`to_dict` persists the effective seed resolved at construction). -/
theorem c2_reconstruction_fidelity :
    (∀ (st : Strategy) (seedOpt : Option Nat) (entropy entropy2 bs nch nseg seg a b : Nat),
      (getTracesSt (noiseFromDict (noiseToDict (mkNoiseRec st seedOpt entropy bs nch nseg))
          entropy2) seg a b).1 =
        (getTracesSt (mkNoiseRec st seedOpt entropy bs nch nseg) seg a b).1) ∧
    (∀ (rawSpikes : List (Nat × Nat × Nat)) (tm : List (List (List (List Rat))))
        (nb : Nat) (nsamp : List Nat) (nch : Nat) (upsOpt : Option (List Nat))
        (seedOpt : Option Nat) (entropy entropy2 : Nat) (bg : Option NoiseRecState)
        (seg a b : Nat),
      bg.map (fun r => noiseFromDict (noiseToDict r) entropy2) = bg →
      (injGetTracesSt (injFromDict (injToDict
            (mkInjRec rawSpikes tm nb nsamp nch upsOpt seedOpt entropy bg)) entropy2)
          seg a b).1 =
        (injGetTracesSt (mkInjRec rawSpikes tm nb nsamp nch upsOpt seedOpt entropy bg)
          seg a b).1) := by
  constructor
  · intro st seedOpt entropy entropy2 bs nch nseg seg a b
    rw [noise_reconstruct]
  · intro rawSpikes tm nb nsamp nch upsOpt seedOpt entropy entropy2 bg seg a b hbg
    have hstate : injFromDict (injToDict
        (mkInjRec rawSpikes tm nb nsamp nch upsOpt seedOpt entropy bg)) entropy2 =
          mkInjRec rawSpikes tm nb nsamp nch upsOpt seedOpt entropy bg := by
      cases bg with
      | none => rfl
      | some r =>
          have hr : noiseFromDict (noiseToDict r) entropy2 = r := by
            simpa using hbg
          simp [injFromDict, injToDict, mkInjRec, hr]
    rw [hstate]

/-- C2 witness: a concrete injection recording over a concrete noise
background, reconstructed with different fresh entropy. -/
theorem c2_witness :
    (injGetTracesSt (injFromDict (injToDict
          (mkInjRec [(0, 5, 0)] [[[[1]]]] 1 [10] 1 none none 3
            (some (mkNoiseRec Strategy.tilePregenerated none 7 4 1 1)))) 9)
        0 0 6).1 =
      (injGetTracesSt (mkInjRec [(0, 5, 0)] [[[[1]]]] 1 [10] 1 none none 3
          (some (mkNoiseRec Strategy.tilePregenerated none 7 4 1 1)))
        0 0 6).1 :=
  c2_reconstruction_fidelity.2 [(0, 5, 0)] [[[[1]]]] 1 [10] 1 none none 3 9
    (some (mkNoiseRec Strategy.tilePregenerated none 7 4 1 1)) 0 0 6 rfl

end SpikeGen

namespace SpikeGen

/-- C8 (template tensor shape): the synthesizer called without an upsample
factor returns a 3-D tensor with `shape[0] = num_units` and
`shape[2] = num_channels`; called with `upsample_factor = U` (U ≥ 2) it
returns a 4-D tensor with the same unit and channel dimensions and
`shape[3] = U`. -/
theorem c8_template_tensor_shape (chanLocs unitLocs : List (Rat × Rat))
    (fs msBefore msAfter : Rat) (seed : Nat) :
    tensorIs3WithShape (generateTemplates chanLocs unitLocs fs msBefore msAfter seed none)
        unitLocs.length chanLocs.length = true ∧
    (∀ u : Nat, 2 ≤ u →
      tensorIs4WithShape (generateTemplates chanLocs unitLocs fs msBefore msAfter seed (some u))
        unitLocs.length chanLocs.length u = true) := by
  constructor
  · simp only [generateTemplates, tensorIs3WithShape, Bool.and_eq_true, beq_iff_eq,
      List.length_map, List.length_range, List.all_eq_true]
    refine ⟨trivial, ?_⟩
    intro uwf huwf
    obtain ⟨v, -, rfl⟩ := List.mem_map.mp huwf
    intro row hrow
    obtain ⟨t, -, rfl⟩ := List.mem_map.mp hrow
    simp
  · intro u hu
    simp only [generateTemplates, tensorIs4WithShape, Bool.and_eq_true, beq_iff_eq,
      List.length_map, List.length_range, List.all_eq_true]
    refine ⟨trivial, ?_⟩
    intro uwf huwf
    obtain ⟨v, -, rfl⟩ := List.mem_map.mp huwf
    intro row hrow
    obtain ⟨t, -, rfl⟩ := List.mem_map.mp hrow
    refine ⟨by simp, ?_⟩
    intro cell hcell
    obtain ⟨c, -, rfl⟩ := List.mem_map.mp hcell
    simp

/-- C8 witness at a concrete geometry with upsample factor 3. -/
theorem c8_witness :
    tensorIs3WithShape (generateTemplates [(0, 0), (1, 0)] [(0, 1)] 30000 1 3 42 none)
        ([((0 : Rat), (1 : Rat))] : List (Rat × Rat)).length
        ([((0 : Rat), (0 : Rat)), (1, 0)] : List (Rat × Rat)).length = true ∧
    tensorIs4WithShape (generateTemplates [(0, 0), (1, 0)] [(0, 1)] 30000 1 3 42 (some 3))
        ([((0 : Rat), (1 : Rat))] : List (Rat × Rat)).length
        ([((0 : Rat), (0 : Rat)), (1, 0)] : List (Rat × Rat)).length 3 = true :=
  ⟨(c8_template_tensor_shape [(0, 0), (1, 0)] [(0, 1)] 30000 1 3 42).1,
    (c8_template_tensor_shape [(0, 0), (1, 0)] [(0, 1)] 30000 1 3 42).2 3 (by decide)⟩

end SpikeGen

namespace SpikeGen

/-- The flattened list of constant runs over increasing indices is sorted. -/
theorem pairwise_flatten_replicate (m : Nat → Nat) : ∀ n : Nat,
    (((List.range n).map (fun i => List.replicate (m i) i)).flatten).Pairwise
      (fun a b : Nat => a ≤ b)
  | 0 => by simp
  | n + 1 => by
      rw [List.range_succ]
      simp only [List.map_append, List.map_cons, List.map_nil, List.flatten_append,
        List.flatten_cons, List.flatten_nil, List.append_nil]
      rw [List.pairwise_append]
      refine ⟨pairwise_flatten_replicate m n, ?_, ?_⟩
      · rw [List.pairwise_replicate]
        right
        exact Nat.le_refl n
      · intro a ha b hb
        have hb' : b = n := List.eq_of_mem_replicate hb
        obtain ⟨l, hl, hal⟩ := List.mem_flatten.mp ha
        obtain ⟨i, hi, rfl⟩ := List.mem_map.mp hl
        have ha' : a = i := List.eq_of_mem_replicate hal
        rw [List.mem_range] at hi
        omega

/-- The per-segment sort of `generate_sorting` is a permutation of the raw
base and border spikes. -/
theorem sortingSegmentSpikes_perm (seed numUnits seg segLen border nBase nBorder : Nat) :
    List.Perm (sortingSegmentSpikes seed numUnits seg segLen border nBase nBorder true)
      ((List.range nBase).map (fun k => (mix64 seed seg k % segLen, k % numUnits)) ++
       (List.range nBorder).map (fun k => (mix64 (seed + 1) seg k % border, k % numUnits)) ++
       (List.range nBorder).map
         (fun k => (segLen - 1 - mix64 (seed + 2) seg k % border, k % numUnits))) := by
  unfold sortingSegmentSpikes
  exact List.mergeSort_perm _ _

/-- Every per-segment record list of `generate_sorting` is sorted by sample
index. -/
theorem sortingSegmentSpikes_sorted (seed numUnits seg segLen border nBase nBorder : Nat)
    (withBorders : Bool) :
    (sortingSegmentSpikes seed numUnits seg segLen border nBase nBorder
      withBorders).Pairwise (fun a b : Nat × Nat => a.1 ≤ b.1) := by
  unfold sortingSegmentSpikes
  have h := @List.sorted_mergeSort (Nat × Nat) (fun a b : Nat × Nat => decide (a.1 ≤ b.1))
    (by intro a b c hab hbc; simp only [decide_eq_true_eq] at hab hbc ⊢; omega)
    (by intro a b; simp only [Bool.or_eq_true, decide_eq_true_eq]; omega)
    (if withBorders then
       (List.range nBase).map (fun k => (mix64 seed seg k % segLen, k % numUnits)) ++
       (List.range nBorder).map (fun k => (mix64 (seed + 1) seg k % border, k % numUnits)) ++
       (List.range nBorder).map
         (fun k => (segLen - 1 - mix64 (seed + 2) seg k % border, k % numUnits))
     else (List.range nBase).map (fun k => (mix64 seed seg k % segLen, k % numUnits)))
  exact List.Pairwise.imp (fun hab => by simpa using hab) h

end SpikeGen

namespace SpikeGen

/-- C9: every sorting generated with border spikes enabled has its spike
vector sorted by segment index and, within each segment, by sample index, and
every segment carries at least `num_spikes_per_border` spikes in each
`border_size_samples`-wide border region. -/
theorem c9_sorting_borders (seed numUnits : Nat) (segLens : List Nat)
    (border nBase nBorder : Nat)
    (hb : 0 < border) (hseg : ∀ L ∈ segLens, border ≤ L) :
    ((generateSortingSpikeVector seed numUnits segLens border nBase nBorder true).map
        (fun spk => spk.seg)).Pairwise (fun a b : Nat => a ≤ b) ∧
    (∀ sgl ∈ generateSortingSegments seed numUnits segLens border nBase nBorder true,
      (sgl.map (fun spk => spk.sample)).Pairwise (fun a b : Nat => a ≤ b)) ∧
    (∀ sg : Nat, sg < segLens.length →
      nBorder ≤ ((generateSortingSegments seed numUnits segLens border nBase nBorder
          true).getD sg []).countP (fun spk => decide (spk.sample < border)) ∧
      nBorder ≤ ((generateSortingSegments seed numUnits segLens border nBase nBorder
          true).getD sg []).countP
        (fun spk => decide (segLens.getD sg 0 - border ≤ spk.sample))) := by
  refine ⟨?_, ?_, ?_⟩
  · have key : (generateSortingSpikeVector seed numUnits segLens border nBase nBorder
        true).map (fun spk => spk.seg) =
        ((List.range segLens.length).map (fun sg =>
          List.replicate ((sortingSegmentSpikes seed numUnits sg (segLens.getD sg 0)
            border nBase nBorder true).length) sg)).flatten := by
      unfold generateSortingSpikeVector generateSortingSegments
      rw [List.map_flatten, List.map_map]
      apply congrArg List.flatten
      apply List.map_congr_left
      intro sg hsg
      show List.map (fun spk => spk.seg)
          (List.map (fun su => Spike.mk sg su.1 su.2 0)
            (sortingSegmentSpikes seed numUnits sg (segLens.getD sg 0) border nBase
              nBorder true)) = _
      rw [List.map_map]
      exact List.map_const' _ _
    rw [key]
    exact pairwise_flatten_replicate _ _
  · intro sgl hsgl
    unfold generateSortingSegments at hsgl
    obtain ⟨sg, -, rfl⟩ := List.mem_map.mp hsgl
    rw [List.pairwise_map, List.pairwise_map]
    exact sortingSegmentSpikes_sorted seed numUnits sg (segLens.getD sg 0) border
      nBase nBorder true
  · intro sg hsg
    have hget : (generateSortingSegments seed numUnits segLens border nBase nBorder
        true).getD sg [] =
        (sortingSegmentSpikes seed numUnits sg (segLens.getD sg 0) border nBase nBorder
          true).map (fun su => Spike.mk sg su.1 su.2 0) := by
      unfold generateSortingSegments
      exact SpikeTemplates.getD_map_range _ _ _ _ hsg
    have hsegmem : segLens.getD sg 0 ∈ segLens := by
      rw [SpikeTemplates.getD_of_lt segLens sg 0 hsg]
      simpa using List.getElem_mem hsg
    have hbl : border ≤ segLens.getD sg 0 := hseg _ hsegmem
    have hperm := sortingSegmentSpikes_perm seed numUnits sg (segLens.getD sg 0) border
      nBase nBorder
    rw [hget]
    constructor
    · rw [List.countP_map, hperm.countP_eq, List.countP_append, List.countP_append]
      have hlow : List.countP
          ((fun spk => decide (spk.sample < border)) ∘ (fun su => Spike.mk sg su.1 su.2 0))
          ((List.range nBorder).map
            (fun k => (mix64 (seed + 1) sg k % border, k % numUnits))) = nBorder := by
        rw [List.countP_map]
        have hall : List.countP
            (((fun spk => decide (spk.sample < border)) ∘ (fun su : Nat × Nat =>
              Spike.mk sg su.1 su.2 0)) ∘ (fun k => (mix64 (seed + 1) sg k % border,
              k % numUnits))) (List.range nBorder) = (List.range nBorder).length := by
          rw [List.countP_eq_length]
          intro k hk
          simp only [Function.comp, decide_eq_true_eq]
          exact Nat.mod_lt _ hb
        rw [hall, List.length_range]
      omega
    · rw [List.countP_map, hperm.countP_eq, List.countP_append, List.countP_append]
      have hhigh : List.countP
          ((fun spk => decide (segLens.getD sg 0 - border ≤ spk.sample)) ∘
            (fun su => Spike.mk sg su.1 su.2 0))
          ((List.range nBorder).map
            (fun k => (segLens.getD sg 0 - 1 - mix64 (seed + 2) sg k % border,
              k % numUnits))) = nBorder := by
        rw [List.countP_map]
        have hall : List.countP
            (((fun spk => decide (segLens.getD sg 0 - border ≤ spk.sample)) ∘
              (fun su : Nat × Nat => Spike.mk sg su.1 su.2 0)) ∘
              (fun k => (segLens.getD sg 0 - 1 - mix64 (seed + 2) sg k % border,
                k % numUnits))) (List.range nBorder) = (List.range nBorder).length := by
          rw [List.countP_eq_length]
          intro k hk
          simp only [Function.comp, decide_eq_true_eq]
          have hr : mix64 (seed + 2) sg k % border < border := Nat.mod_lt _ hb
          omega
        rw [hall, List.length_range]
      omega

/-- C9 witness at two concrete segments with border size 2. -/
theorem c9_witness :
    ((generateSortingSpikeVector 0 3 [5, 7] 2 3 2 true).map
        (fun spk => spk.seg)).Pairwise (fun a b : Nat => a ≤ b) ∧
    (∀ sgl ∈ generateSortingSegments 0 3 [5, 7] 2 3 2 true,
      (sgl.map (fun spk => spk.sample)).Pairwise (fun a b : Nat => a ≤ b)) ∧
    (∀ sg : Nat, sg < ([5, 7] : List Nat).length →
      2 ≤ ((generateSortingSegments 0 3 [5, 7] 2 3 2 true).getD sg []).countP
          (fun spk => decide (spk.sample < 2)) ∧
      2 ≤ ((generateSortingSegments 0 3 [5, 7] 2 3 2 true).getD sg []).countP
        (fun spk => decide (([5, 7] : List Nat).getD sg 0 - 2 ≤ spk.sample))) :=
  c9_sorting_borders 0 3 [5, 7] 2 3 2 (by decide) (by decide)

end SpikeGen
